import Mathlib

/-!
Verification of the branch-protection-report tool (`src/index.js`).

The JavaScript source is shallowly embedded: JS strings are Lean `String`s
(manipulated through their underlying `List Char`, with the JS string
operations `split`, `trim`, `toLowerCase`, `startsWith`, `endsWith`,
`indexOf`, `slice`, `join` re-implemented below with ECMAScript semantics);
dynamic JS values (the JSON trees that come back from the API) are the
inductive `JValue`, with `undefined` explicit; HTTP failures are
`Except JsError`, where the error carries the response status when one
arrived (`some status`) and `none` for a network-level failure without a
response; `await`-based loops become fuel-indexed recursion, where a `none`
result means the fuel ran out before the loop finished; the blocking sleeps
are recorded in an explicit list of sleep durations (milliseconds).
-/

set_option maxRecDepth 8192

namespace BranchReport

/-- An HTTP failure as `axios` delivers it: `some status` when a response
with a status code arrived (`error.response.status`), `none` when there was
no response (network error / timeout). -/
abbrev JsError := Option Nat

/-- The fields of a repository object that the program reads
(`repo.name`, `repo.default_branch`). -/
structure Repo where
  name : String
  default_branch : String
deriving DecidableEq

/-! ## JS string primitives (ECMAScript semantics, over `List Char`) -/

/-- JS `String.prototype.split` with a one-character separator: scan left to
right, cutting at each occurrence. Note `"".split(sep) = [""]`, so the
result is never empty. -/
def jsSplitOneSep (c : Char) : List Char → List (List Char)
  | [] => [[]]
  | d :: rest =>
    if d = c then [] :: jsSplitOneSep c rest
    else
      match jsSplitOneSep c rest with
      | [] => [[d]]
      | seg :: segs => (d :: seg) :: segs

/-- JS `String.prototype.split` with a two-character separator: cut at each
non-overlapping occurrence of the pair `a, b`, scanning left to right. -/
def jsSplitTwoSep (a b : Char) : List Char → List (List Char)
  | [] => [[]]
  | [d] => [[d]]
  | d :: e :: rest =>
    if d = a ∧ e = b then [] :: jsSplitTwoSep a b rest
    else
      match jsSplitTwoSep a b (e :: rest) with
      | [] => [[d]]
      | seg :: segs => (d :: seg) :: segs

/-- JS `s.split(';')` (the separator `main` uses on the admins string). -/
def jsSplitSemi (s : String) : List String :=
  (jsSplitOneSep ';' s.data).map String.mk

/-- JS `s.split(', ')` (the separator `getRepos` uses on the link
header). -/
def jsSplitCommaSpace (s : String) : List String :=
  (jsSplitTwoSep ',' ' ' s.data).map String.mk

/-- JS `String.prototype.trim`: drop whitespace from both ends. -/
def jsTrimChars (l : List Char) : List Char :=
  ((l.dropWhile Char.isWhitespace).reverse.dropWhile Char.isWhitespace).reverse

/-- JS `s.trim()`. -/
def jsTrim (s : String) : String := String.mk (jsTrimChars s.data)

/-- JS `s.toLowerCase()` (ASCII-faithful, which covers GitHub logins). -/
def jsToLower (s : String) : String := String.mk (s.data.map Char.toLower)

/-- JS `s.startsWith(pat)`. -/
def jsStartsWith (pat s : String) : Bool := pat.data.isPrefixOf s.data

/-- JS `s.endsWith(pat)`. -/
def jsEndsWith (pat s : String) : Bool := pat.data.isSuffixOf s.data

/-- JS `s.indexOf(c)`: index of the first occurrence, `-1` when absent. -/
def jsIndexOf (s : String) (c : Char) : Int :=
  match s.data.findIdx? (fun d => d = c) with
  | some i => (i : Int)
  | none => -1

/-- JS `s.slice(a, b)` index normalization: negative counts from the end,
then clamp into `[0, len]`. -/
def jsSliceIdx (len : Nat) (i : Int) : Nat :=
  if i < 0 then (max ((len : Int) + i) 0).toNat else (min i (len : Int)).toNat

/-- JS `s.slice(a, b)`. -/
def jsSlice (s : String) (a b : Int) : String :=
  let n := s.data.length
  let start := jsSliceIdx n a
  let stop := jsSliceIdx n b
  String.mk ((s.data.drop start).take (stop - start))

/-- JS `arr.join(sep)` on a list of character lists. -/
def jsJoinChars (sep : List Char) : List (List Char) → List Char
  | [] => []
  | [x] => x
  | x :: xs => x ++ sep ++ jsJoinChars sep xs

/-- JS `arr.join(sep)`. -/
def jsJoin (sep : String) (xs : List String) : String :=
  String.mk (jsJoinChars sep.data (xs.map String.data))

/-! ## Dynamic JS values -/

mutual
/-- A dynamic JS value as the program sees API responses: scalars
(strings, numbers, booleans, `null`, `undefined`), arrays and objects.
Numbers are modelled as integers (every number the program touches is a
count or a flag). -/
inductive JValue where
  | str : String → JValue
  | num : Int → JValue
  | boolean : Bool → JValue
  | null : JValue
  | undefined : JValue
  | arr : JArr → JValue
  | obj : JObj → JValue
deriving DecidableEq

/-- The elements of a JS array. -/
inductive JArr where
  | nil : JArr
  | cons : JValue → JArr → JArr
deriving DecidableEq

/-- The own enumerable properties of a JS object, in insertion order. -/
inductive JObj where
  | nil : JObj
  | cons : String → JValue → JObj → JObj
deriving DecidableEq
end

/-- Property lookup on an object's entry list: first entry with the key,
`undefined` when absent. -/
def jGetObj (key : String) : JObj → JValue
  | .nil => .undefined
  | .cons k v rest => if k = key then v else jGetObj key rest

/-- JS property access `v[key]` as the program uses it. On a non-object the
program's accesses are either guarded by a truthiness test or applied to
values that are objects by the API contract, so `undefined` is returned
there. -/
def jGet (v : JValue) (key : String) : JValue :=
  match v with
  | .obj kvs => jGetObj key kvs
  | _ => .undefined

/-- JS truthiness of a value (`v ? a : b`): `undefined`, `null`, `false`,
`0` and `""` are falsy, everything else (objects and arrays included) is
truthy. -/
def jsTruthy : JValue → Bool
  | .undefined => false
  | .null => false
  | .boolean b => b
  | .num n => n != 0
  | .str s => s.data != []
  | .arr _ => true
  | .obj _ => true

/-- JS loose equality `v == false` (the row builder's
`rule.protection.enabled == false`). `ToNumber(false) = 0`, so: booleans
compare by value, numbers compare with `0`, `undefined` and `null` are not
loosely equal to `false`. A numeric string equal to `0` also compares true;
object and array operands go through `ToPrimitive` and are modelled as not
equal to `false` (at this access site the value is only ever `undefined`
or the boolean `false`). -/
def jsEqFalse : JValue → Bool
  | .boolean b => !b
  | .num n => n == 0
  | .str s => jsTrimChars s.data = [] || ((jsTrimChars s.data).all Char.isDigit && (jsTrimChars s.data).all (fun c => c = '0'))
  | .undefined => false
  | .null => false
  | .arr _ => false
  | .obj _ => false

/-! ## `removeUrlsFromObject` (src/index.js lines 99–111) -/

/-- JS `typeof v === 'object' && v !== null`: true exactly for objects and
arrays (`typeof null` is `'object'` but the code excludes it). -/
def isObjectType : JValue → Bool
  | .arr _ => true
  | .obj _ => true
  | _ => false

/-- The value is a string starting with `"http"` — the values
`removeUrlsFromObject` drops. -/
def isUrlString : JValue → Bool
  | .str s => jsStartsWith "http" s
  | _ => false

mutual
/-- The function `removeUrlsFromObject(obj)`: rebuild the object/array, recursing into
object-typed children, copying any child that is not a string starting with
`"http"`, and skipping the URL strings. The code only ever invokes it on
objects; `for..in` over a non-string primitive enumerates nothing, giving
the empty object on the catch-all branch. -/
def removeUrlsFromObject : JValue → JValue
  | .arr xs => .arr (stripArr xs)
  | .obj kvs => .obj (stripObj kvs)
  | _ => .obj .nil

/-- The array case of `removeUrlsFromObject`'s `for..in` loop. -/
def stripArr : JArr → JArr
  | .nil => .nil
  | .cons v vs =>
    if isObjectType v then .cons (removeUrlsFromObject v) (stripArr vs)
    else if isUrlString v then stripArr vs
    else .cons v (stripArr vs)

/-- The object case of `removeUrlsFromObject`'s `for..in` loop. -/
def stripObj : JObj → JObj
  | .nil => .nil
  | .cons k v kvs =>
    if isObjectType v then .cons k (removeUrlsFromObject v) (stripObj kvs)
    else if isUrlString v then stripObj kvs
    else .cons k v (stripObj kvs)
end

mutual
/-- No string value anywhere in the tree starts with `"http"`. -/
def urlFree : JValue → Bool
  | .arr xs => urlFreeArr xs
  | .obj kvs => urlFreeObj kvs
  | v => !isUrlString v

/-- Predicate `urlFree` over array elements. -/
def urlFreeArr : JArr → Bool
  | .nil => true
  | .cons v vs => urlFree v && urlFreeArr vs

/-- Predicate `urlFree` over object entries. -/
def urlFreeObj : JObj → Bool
  | .nil => true
  | .cons _ v kvs => urlFree v && urlFreeObj kvs
end

/-! ## Protection fetcher (src/index.js lines 113–148) -/

/-- The object literal `parsedProtection` built from `response.data`
(lines 127–143), entry for entry and in source order. The ternaries
`x ? a : b` are JS truthiness tests. -/
def parsedProtection (data : JValue) : JObj :=
  .cons "required_pull_request_reviews" (.boolean (jsTruthy (jGet data "required_pull_request_reviews")))
  (.cons "required_pull_request_reviews_count"
      (if jsTruthy (jGet data "required_pull_request_reviews") then
        jGet (jGet data "required_pull_request_reviews") "required_approving_review_count"
      else .num 0)
  (.cons "required_pull_request_reviews_code_owners"
      (if jsTruthy (jGet data "required_pull_request_reviews") then
        jGet (jGet data "required_pull_request_reviews") "require_code_owner_reviews"
      else .boolean false)
  (.cons "required_signatures" (jGet data "required_signatures")
  (.cons "enforce_admins" (jGet data "enforce_admins")
  (.cons "restrictions" (.boolean (jsTruthy (jGet data "restrictions")))
  (.cons "required_linear_history" (jGet data "required_linear_history")
  (.cons "allow_force_pushes" (jGet data "allow_force_pushes")
  (.cons "allow_deletions" (jGet data "allow_deletions")
  (.cons "block_creations" (jGet data "block_creations")
  (.cons "required_conversation_resolution" (jGet data "required_conversation_resolution")
  (.cons "lock_branch" (jGet data "lock_branch")
  (.cons "allow_fork_syncing" (jGet data "allow_fork_syncing")
  .nil))))))))))))

/-- The value `getBranchProtectionRules` resolves with:
`{ name: ..., protection: ... }`. -/
structure BranchRule where
  name : JValue
  protection : JValue
deriving DecidableEq

/-- The function `getBranchProtectionRules(repo)`, with the protection-lookup response
passed in (`lookup` is what `await axiosInstance.get(...)` produced: the
response's `data` on success, the thrown error otherwise). A 404 yields
`{name: repo.default_branch, protection: {enabled: false}}`; any other
failure is re-thrown; on success the record is `parsedProtection` with the
URL strings stripped, under `response.data.name`. -/
def getBranchProtectionRules (lookup : Except JsError JValue) (repo : Repo) : Except JsError BranchRule :=
  match lookup with
  | .error e =>
    if e = some 404 then
      .ok { name := .str repo.default_branch, protection := .obj (.cons "enabled" (.boolean false) .nil) }
    else
      .error e
  | .ok data =>
    .ok { name := jGet data "name", protection := removeUrlsFromObject (.obj (parsedProtection data)) }

/-! ## Admin-exception resolution (src/index.js lines 150–163 and 210–215) -/

/-- The object `user.permissions` as read by `getRepoAdmins`. -/
structure CollabPermissions where
  admin : Bool
deriving DecidableEq

/-- One collaborator object from the admin-collaborator listing. -/
structure Collaborator where
  login : String
  permissions : CollabPermissions
deriving DecidableEq

/-- The body of `getRepoAdmins` applied to `response.data`: keep the users
whose `permissions.admin` is true, take their logins, join with `'; '`. -/
def getRepoAdminsOf (data : List Collaborator) : String :=
  jsJoin "; " ((data.filter (fun u => u.permissions.admin)).map (fun u => u.login))

/-- The function `getRepoAdmins(repo)` with the collaborator-listing outcome passed in.
The function has no try/catch, so any failed request propagates. -/
def getRepoAdmins (fetch : Except JsError (List Collaborator)) : Except JsError String :=
  match fetch with
  | .error e => .error e
  | .ok data => .ok (getRepoAdminsOf data)

/-- The post-processing of the admins string inside `main`'s loop
(lines 213–215): split on `';'`, trim and lower-case each piece, drop the
pieces contained in `orgOwners`, re-join with `';'`. -/
def resolveAdmins (orgOwners : List String) (admins : String) : String :=
  jsJoin ";" (((jsSplitSemi admins).map (fun a => jsToLower (jsTrim a))).filter
    (fun a => !(orgOwners.contains a)))

/-! ## Report row (src/index.js lines 218–236) -/

/-- The object handed to the CSV serializer for one repository, field for
field (serialization itself is an external collaborator). -/
structure ReportRow where
  repo : String
  branch : String
  enabled : Bool
  required_pull_request_reviews_count : JValue
  required_pull_request_reviews_code_owners : JValue
  restrictions : JValue
  required_signatures : JValue
  enforce_admins : JValue
  required_linear_history : JValue
  allow_force_pushes : JValue
  allow_deletions : JValue
  block_creations : JValue
  admins : String
deriving DecidableEq

/-- The row literal of lines 219–236: `enabled` is
`rule.protection.enabled == false ? false : true`; the six wrapper fields
are the `.enabled` sub-field of the wrapper when the wrapper is truthy and
`undefined` otherwise; count/code-owners/restrictions are copied from the
protection record. -/
def buildRow (repo : Repo) (rule : BranchRule) (admins : String) : ReportRow :=
  { repo := repo.name
    branch := repo.default_branch
    enabled := if jsEqFalse (jGet rule.protection "enabled") then false else true
    required_pull_request_reviews_count := jGet rule.protection "required_pull_request_reviews_count"
    required_pull_request_reviews_code_owners := jGet rule.protection "required_pull_request_reviews_code_owners"
    restrictions := jGet rule.protection "restrictions"
    required_signatures :=
      if jsTruthy (jGet rule.protection "required_signatures") then
        jGet (jGet rule.protection "required_signatures") "enabled"
      else .undefined
    enforce_admins :=
      if jsTruthy (jGet rule.protection "enforce_admins") then
        jGet (jGet rule.protection "enforce_admins") "enabled"
      else .undefined
    required_linear_history :=
      if jsTruthy (jGet rule.protection "required_linear_history") then
        jGet (jGet rule.protection "required_linear_history") "enabled"
      else .undefined
    allow_force_pushes :=
      if jsTruthy (jGet rule.protection "allow_force_pushes") then
        jGet (jGet rule.protection "allow_force_pushes") "enabled"
      else .undefined
    allow_deletions :=
      if jsTruthy (jGet rule.protection "allow_deletions") then
        jGet (jGet rule.protection "allow_deletions") "enabled"
      else .undefined
    block_creations :=
      if jsTruthy (jGet rule.protection "block_creations") then
        jGet (jGet rule.protection "block_creations") "enabled"
      else .undefined
    admins := admins }

/-- The per-repository loop of `main` (lines 210–242). The file is
append-only: the returned list holds the rows appended so far in processing
order, and the `Option JsError` records the uncaught failure that aborted
the loop, if any (rows already on disk stay). `protLookup` and
`collabFetch` give each repository's two request outcomes; `orgOwnersLower`
is the lower-cased owner list of line 198. -/
def processRepos (protLookup : Repo → Except JsError JValue)
    (collabFetch : Repo → Except JsError (List Collaborator))
    (orgOwnersLower : List String) : List Repo → List ReportRow × Option JsError
  | [] => ([], none)
  | repo :: rest =>
    match getBranchProtectionRules (protLookup repo) repo with
    | .error e => ([], some e)
    | .ok rule =>
      match getRepoAdmins (collabFetch repo) with
      | .error e => ([], some e)
      | .ok adminsRaw =>
        let row := buildRow repo rule (resolveAdmins orgOwnersLower adminsRaw)
        let tail := processRepos protLookup collabFetch orgOwnersLower rest
        (row :: tail.1, tail.2)

/-- The header line `main` writes before the loop (line 207), exactly as
the source literal (note the space before the newline). -/
def csvHeaderWrite : String :=
  "repo,branch,enabled,required_pull_request_reviews_count,required_pull_request_reviews_code_owners,restrictions,required_signatures,enforce_admins,required_linear_history,allow_force_pushes,allow_deletions,block_creations,admins \n"

/-- The first line of a written string: everything before the first
newline. -/
def firstLine (s : String) : String :=
  String.mk (s.data.takeWhile (fun c => c ≠ '\n'))

/-! ## Pagination walker `getRepos` (src/index.js lines 62–97) -/

/-- One successful repository-listing response as `getRepos` consumes it:
`response.data` (a page of repositories) and `response.headers.link`. -/
structure ReposPage where
  data : List Repo
  link : Option String
deriving DecidableEq

/-- Line 84: `links.find(link => link.endsWith('rel="next"'))`. -/
def findNextLink (links : List String) : Option String :=
  links.find? (fun l => jsEndsWith "rel=\"next\"" l)

/-- Lines 82–93: split the link header on `', '`, find the entry ending in
`rel="next"`, and cut out what stands between `'<'` and `'>'`; `none` when
there is no header or no such entry (the loop then stops). -/
def nextUrlOfHeaders (link : Option String) : Option String :=
  match link with
  | none => none
  | some h =>
    match findNextLink (jsSplitCommaSpace h) with
    | some nextLink => some (jsSlice nextLink (jsIndexOf nextLink '<' + 1) (jsIndexOf nextLink '>'))
    | none => none

/-- The URL `getRepos` starts from (line 65). -/
def reposStartUrl (orgName : String) : String :=
  "https://api.github.com/orgs/" ++ orgName ++ "/repos?per_page=100"

/-- The `while (url)` loop of `getRepos`, fuel-indexed (`none` = fuel ran
out before the loop finished). `transport i url` is the outcome of the
`i`-th request of the run; a 403 sleeps 60000 ms (recorded in `sleeps`) and
retries the same URL, any other failure is re-thrown; on success the page
is concatenated and the loop follows the parsed next link, stopping when
there is none or when the extracted URL is falsy (the empty string). -/
def getReposGo (transport : Nat → String → Except JsError ReposPage) :
    Nat → Nat → String → List Repo → List Nat →
    Option (Except JsError (List Repo × List Nat))
  | 0, _, _, _, _ => none
  | fuel + 1, i, url, repos, sleeps =>
    match transport i url with
    | .error e =>
      if e = some 403 then getReposGo transport fuel (i + 1) url repos (sleeps ++ [60000])
      else some (.error e)
    | .ok page =>
      match nextUrlOfHeaders page.link with
      | some u =>
        if u = "" then some (.ok (repos ++ page.data, sleeps))
        else getReposGo transport fuel (i + 1) u (repos ++ page.data) sleeps
      | none => some (.ok (repos ++ page.data, sleeps))

/-- The function `getRepos(orgName)` with the transport passed in; returns the
accumulated repositories together with the 403 backoff sleeps performed. -/
def getRepos (transport : Nat → String → Except JsError ReposPage)
    (orgName : String) (fuel : Nat) : Option (Except JsError (List Repo × List Nat)) :=
  getReposGo transport fuel 0 (reposStartUrl orgName) [] []

/-! ## Org validation loop (src/index.js lines 174–195) -/

/-- How the org-existence check ends. -/
inductive ValidateOutcome where
  | passed : ValidateOutcome
  | exitInvalidToken : ValidateOutcome
  | exitOrgMissing : ValidateOutcome
  | thrown : JsError → ValidateOutcome
deriving DecidableEq

/-- The `while (url)` org-validation loop of `main`: 401 and 404 terminate
the process, 403 sleeps 60000 ms and retries, any other failure is
re-thrown, success leaves the loop. Fuel-indexed as above. -/
def validateOrg (transport : Nat → Except JsError Unit) :
    Nat → Nat → List Nat → Option (ValidateOutcome × List Nat)
  | 0, _, _ => none
  | fuel + 1, i, sleeps =>
    match transport i with
    | .ok _ => some (.passed, sleeps)
    | .error e =>
      if e = some 401 then some (.exitInvalidToken, sleeps)
      else if e = some 404 then some (.exitOrgMissing, sleeps)
      else if e = some 403 then validateOrg transport fuel (i + 1) (sleeps ++ [60000])
      else some (.thrown e, sleeps)

/-! ## Response interceptor (src/index.js lines 42–60) -/

/-- JS truthiness of a string-or-undefined header value. -/
def jsStrOptTruthy : Option String → Bool
  | none => false
  | some s => s.data != []

/-- The axios response interceptor: when the `x-ratelimit-remaining` header
is truthy and strictly equals `'0'`, delivery of the (unchanged) response
is suspended for `resetTime - currentTime` seconds (the code passes
`delay * 1000` to `setTimeout`); otherwise the response is delivered at
once. `reset` and `now` are the numeric values of the reset header and of
the current epoch time; the first component is the suspension in seconds,
`none` when delivery is immediate. -/
def rateLimitInterceptor {α : Type} (remaining : Option String) (reset now : Int)
    (resp : α) : Option Int × α :=
  if jsStrOptTruthy remaining && (remaining == some "0") then
    (some (reset - now), resp)
  else
    (none, resp)

/-! ## Helper lemmas on stripped objects -/

/-- Looking up `key` past a stripped entry with a different key skips it,
whether the entry was recursed into, dropped, or copied. -/
theorem jGetObj_stripObj_skip (key k : String) (v : JValue) (rest : JObj) (hk : k ≠ key) :
    jGetObj key (stripObj (.cons k v rest)) = jGetObj key (stripObj rest) := by
  by_cases h1 : isObjectType v
  · simp [stripObj, h1, jGetObj, hk]
  · by_cases h2 : isUrlString v
    · simp [stripObj, h1, h2]
    · simp [stripObj, h1, h2, jGetObj, hk]

/-- A non-object, non-URL value survives stripping in place. -/
theorem jGetObj_stripObj_keep (key : String) (v : JValue) (rest : JObj)
    (h1 : isObjectType v = false) (h2 : isUrlString v = false) :
    jGetObj key (stripObj (.cons key v rest)) = v := by
  simp [stripObj, h1, h2, jGetObj]

/-- A key that reads `undefined` before stripping still reads `undefined`
after it. -/
theorem jGetObj_stripObj_undef (key : String) :
    ∀ kvs : JObj, jGetObj key kvs = .undefined → jGetObj key (stripObj kvs) = .undefined
  | .nil, _ => by simp [stripObj, jGetObj]
  | .cons k v rest, h => by
    by_cases hk : k = key
    · subst hk
      have hv : v = .undefined := by simpa [jGetObj] using h
      subst hv
      exact jGetObj_stripObj_keep k .undefined rest rfl rfl
    · have hrest : jGetObj key rest = .undefined := by simpa [jGetObj, hk] using h
      rw [jGetObj_stripObj_skip key k v rest hk]
      exact jGetObj_stripObj_undef key rest hrest

/-- A key whose (first) value is a non-object, non-URL value reads the same
value after stripping; in particular a key reading `undefined` still reads
`undefined`. -/
theorem jGetObj_stripObj_eq (key : String) :
    ∀ (kvs : JObj) (v : JValue), jGetObj key kvs = v →
      isObjectType v = false → isUrlString v = false →
      jGetObj key (stripObj kvs) = v
  | .nil, v, h, _, _ => by simpa [stripObj, jGetObj] using h
  | .cons k w rest, v, h, h1, h2 => by
    by_cases hk : k = key
    · subst hk
      have hw : w = v := by simpa [jGetObj] using h
      subst hw
      exact jGetObj_stripObj_keep k w rest h1 h2
    · have hrest : jGetObj key rest = v := by simpa [jGetObj, hk] using h
      rw [jGetObj_stripObj_skip key k w rest hk]
      exact jGetObj_stripObj_eq key rest v hrest h1 h2

/-! ## C3 — 404 protection lookups -/

/-- C3: when the protection lookup fails with status 404,
`getBranchProtectionRules` resolves (does not throw) with the repository's
default branch as name and the protection object exactly
`{enabled: false}`; a failure with any other status (or with no response)
is re-thrown unchanged. -/
theorem claimC3 (repo : Repo) (e : JsError) :
    getBranchProtectionRules (.error (some 404)) repo =
      .ok { name := .str repo.default_branch,
            protection := .obj (.cons "enabled" (.boolean false) .nil) }
    ∧ (e ≠ some 404 → getBranchProtectionRules (.error e) repo = .error e) := by
  constructor
  · simp [getBranchProtectionRules]
  · intro h
    simp [getBranchProtectionRules, h]

/-- Witness for C3 at a concrete repository, with a 500 as the non-404
failure. -/
theorem claimC3_witness :
    getBranchProtectionRules (.error (some 404)) ⟨"repo-a", "main"⟩ =
      .ok { name := .str "main",
            protection := .obj (.cons "enabled" (.boolean false) .nil) }
    ∧ getBranchProtectionRules (.error (some 500)) ⟨"repo-a", "main"⟩ = .error (some 500) :=
  ⟨(claimC3 ⟨"repo-a", "main"⟩ (some 500)).1,
   (claimC3 ⟨"repo-a", "main"⟩ (some 500)).2 (by decide)⟩

/-! ## C8 — response interceptor -/

/-- C8: when the `x-ratelimit-remaining` header reads exactly `'0'`, the
interceptor suspends delivery for `reset - now` seconds and then delivers
the original response unchanged; for any other header value (absent
included) the response is delivered immediately and unchanged. -/
theorem claimC8 {α : Type} (remaining : Option String) (reset now : Int) (resp : α) :
    (remaining = some "0" →
      rateLimitInterceptor remaining reset now resp = (some (reset - now), resp))
    ∧ (remaining ≠ some "0" →
      rateLimitInterceptor remaining reset now resp = (none, resp)) := by
  constructor
  · intro h
    subst h
    simp [rateLimitInterceptor, jsStrOptTruthy]
  · intro h
    have hb : (remaining == some "0") = false := by
      simpa using h
    simp [rateLimitInterceptor, hb]

/-- Witness for C8: remaining `'0'` with reset five seconds ahead delays by
five seconds; remaining `'37'` delivers immediately. -/
theorem claimC8_witness :
    rateLimitInterceptor (some "0") 105 100 JValue.null = (some 5, JValue.null)
    ∧ rateLimitInterceptor (some "37") 105 100 JValue.null = (none, JValue.null) :=
  ⟨(claimC8 (some "0") 105 100 JValue.null).1 rfl,
   (claimC8 (some "37") 105 100 JValue.null).2 (by decide)⟩

/-! ## C9 — header line -/

/-- C9 as stated is false: the literal the code writes puts a space between
`admins` and the newline, so the first line of the file is not exactly the
claimed header string. -/
theorem claimC9_counterexample :
    firstLine csvHeaderWrite ≠
      "repo,branch,enabled,required_pull_request_reviews_count,required_pull_request_reviews_code_owners,restrictions,required_signatures,enforce_admins,required_linear_history,allow_force_pushes,allow_deletions,block_creations,admins" := by
  decide

/-- C9 amended: the first line written to the output file is the fixed
header fields followed by a single trailing space. -/
theorem claimC9 :
    firstLine csvHeaderWrite =
      "repo,branch,enabled,required_pull_request_reviews_count,required_pull_request_reviews_code_owners,restrictions,required_signatures,enforce_admins,required_linear_history,allow_force_pushes,allow_deletions,block_creations,admins " := by
  decide

/-! ## C10 — the enabled column -/

/-- C10: in an emitted row the `enabled` column is `false` exactly on the
404 path (whose record carries `enabled: false`), and `true` for every
successful protection lookup whatever its content, because the success-path
record has no `enabled` key and `undefined == false` is false in JS. -/
theorem claimC10 (repo : Repo) (adminsStr : String) (data : JValue) :
    (∀ r, getBranchProtectionRules (.error (some 404)) repo = .ok r →
      (buildRow repo r adminsStr).enabled = false)
    ∧ (∀ r, getBranchProtectionRules (.ok data) repo = .ok r →
      (buildRow repo r adminsStr).enabled = true) := by
  constructor
  · intro r h
    have hr : r = { name := .str repo.default_branch,
                    protection := .obj (.cons "enabled" (.boolean false) .nil) } := by
      simpa [getBranchProtectionRules] using h.symm
    subst hr
    simp [buildRow, jGet, jGetObj, jsEqFalse]
  · intro r h
    have hr : r = { name := jGet data "name",
                    protection := removeUrlsFromObject (.obj (parsedProtection data)) } := by
      simpa [getBranchProtectionRules] using h.symm
    subst hr
    have hbase : jGetObj "enabled" (parsedProtection data) = .undefined := by
      simp [parsedProtection, jGetObj]
    have hstr : jGetObj "enabled" (stripObj (parsedProtection data)) = .undefined :=
      jGetObj_stripObj_eq "enabled" (parsedProtection data) .undefined hbase rfl rfl
    simp [buildRow, removeUrlsFromObject, jGet, hstr, jsEqFalse]

/-! ## C7 — shape of the success-path protection record -/

/-- C7: on a successful protection response, the final record (after URL
stripping) stores `required_pull_request_reviews` as a presence boolean,
the approving-review count with default `0` and the code-owner flag with
default `false` when the reviews object is absent, and `restrictions` as a
presence boolean only. -/
theorem claimC7 (data : JValue) :
    (jGet data "required_pull_request_reviews" = .undefined →
      jGet (removeUrlsFromObject (.obj (parsedProtection data))) "required_pull_request_reviews" = .boolean false
      ∧ jGet (removeUrlsFromObject (.obj (parsedProtection data))) "required_pull_request_reviews_count" = .num 0
      ∧ jGet (removeUrlsFromObject (.obj (parsedProtection data))) "required_pull_request_reviews_code_owners" = .boolean false)
    ∧ (∀ (kvs : JObj) (cnt : Int) (co : Bool),
        jGet data "required_pull_request_reviews" = .obj kvs →
        jGetObj "required_approving_review_count" kvs = .num cnt →
        jGetObj "require_code_owner_reviews" kvs = .boolean co →
      jGet (removeUrlsFromObject (.obj (parsedProtection data))) "required_pull_request_reviews" = .boolean true
      ∧ jGet (removeUrlsFromObject (.obj (parsedProtection data))) "required_pull_request_reviews_count" = .num cnt
      ∧ jGet (removeUrlsFromObject (.obj (parsedProtection data))) "required_pull_request_reviews_code_owners" = .boolean co)
    ∧ (jGet data "restrictions" = .undefined →
      jGet (removeUrlsFromObject (.obj (parsedProtection data))) "restrictions" = .boolean false)
    ∧ (∀ rkvs : JObj, jGet data "restrictions" = .obj rkvs →
      jGet (removeUrlsFromObject (.obj (parsedProtection data))) "restrictions" = .boolean true) := by
  refine ⟨?_, ?_, ?_, ?_⟩
  · intro h
    refine ⟨?_, ?_, ?_⟩ <;>
    · rw [show removeUrlsFromObject (.obj (parsedProtection data)) = .obj (stripObj (parsedProtection data)) from rfl, jGet]
      refine jGetObj_stripObj_eq _ (parsedProtection data) _ ?_ rfl rfl
      simp [parsedProtection, jGetObj, h, jsTruthy]
  · intro kvs cnt co hk hc hco
    refine ⟨?_, ?_, ?_⟩ <;>
    · rw [show removeUrlsFromObject (.obj (parsedProtection data)) = .obj (stripObj (parsedProtection data)) from rfl, jGet]
      refine jGetObj_stripObj_eq _ (parsedProtection data) _ ?_ rfl rfl
      simp only [parsedProtection, hk]
      simp [jGetObj, jsTruthy, jGet, hc, hco]
  · intro h
    rw [show removeUrlsFromObject (.obj (parsedProtection data)) = .obj (stripObj (parsedProtection data)) from rfl, jGet]
    refine jGetObj_stripObj_eq _ (parsedProtection data) _ ?_ rfl rfl
    simp [parsedProtection, jGetObj, h, jsTruthy]
  · intro rkvs h
    rw [show removeUrlsFromObject (.obj (parsedProtection data)) = .obj (stripObj (parsedProtection data)) from rfl, jGet]
    refine jGetObj_stripObj_eq _ (parsedProtection data) _ ?_ rfl rfl
    simp [parsedProtection, jGetObj, h, jsTruthy]

/-- Witness for C10: concrete 404-path and success-path records (the
latter from an empty response object). -/
theorem claimC10_witness :
    (buildRow ⟨"repo-a", "main"⟩
      ⟨.str "main", .obj (.cons "enabled" (.boolean false) .nil)⟩ "").enabled = false
    ∧ (buildRow ⟨"repo-a", "main"⟩
      ⟨jGet (JValue.obj .nil) "name",
       removeUrlsFromObject (.obj (parsedProtection (JValue.obj .nil)))⟩ "").enabled = true :=
  ⟨(claimC10 ⟨"repo-a", "main"⟩ "" (JValue.obj .nil)).1 _ rfl,
   (claimC10 ⟨"repo-a", "main"⟩ "" (JValue.obj .nil)).2 _ rfl⟩

/-- A concrete successful protection response for the C7 witness: a
reviews object with count 2 and code-owner reviews required, and a
(present) restrictions object. -/
def protDataW : JValue :=
  .obj (.cons "required_pull_request_reviews"
          (.obj (.cons "required_approving_review_count" (.num 2)
                (.cons "require_code_owner_reviews" (.boolean true) .nil)))
       (.cons "restrictions" (.obj .nil) .nil))

/-- Witness for C7: the absent case on the empty response object and the
present case on `protDataW`. -/
theorem claimC7_witness :
    (jGet (removeUrlsFromObject (.obj (parsedProtection (JValue.obj .nil)))) "required_pull_request_reviews" = .boolean false
      ∧ jGet (removeUrlsFromObject (.obj (parsedProtection (JValue.obj .nil)))) "required_pull_request_reviews_count" = .num 0
      ∧ jGet (removeUrlsFromObject (.obj (parsedProtection (JValue.obj .nil)))) "required_pull_request_reviews_code_owners" = .boolean false)
    ∧ (jGet (removeUrlsFromObject (.obj (parsedProtection protDataW))) "required_pull_request_reviews" = .boolean true
      ∧ jGet (removeUrlsFromObject (.obj (parsedProtection protDataW))) "required_pull_request_reviews_count" = .num 2
      ∧ jGet (removeUrlsFromObject (.obj (parsedProtection protDataW))) "required_pull_request_reviews_code_owners" = .boolean true)
    ∧ jGet (removeUrlsFromObject (.obj (parsedProtection (JValue.obj .nil)))) "restrictions" = .boolean false
    ∧ jGet (removeUrlsFromObject (.obj (parsedProtection protDataW))) "restrictions" = .boolean true :=
  ⟨(claimC7 (JValue.obj .nil)).1 (by decide),
   (claimC7 protDataW).2.1
     (.cons "required_approving_review_count" (.num 2)
       (.cons "require_code_owner_reviews" (.boolean true) .nil)) 2 true
     (by decide) (by decide) (by decide),
   (claimC7 (JValue.obj .nil)).2.2.1 (by decide),
   (claimC7 protDataW).2.2.2 .nil (by decide)⟩

/-! ## C6 — URL stripping -/

/-- Whatever `removeUrlsFromObject` returns is object-typed (an object or
an array). -/
theorem isObjectType_removeUrls (v : JValue) : isObjectType (removeUrlsFromObject v) = true := by
  cases v <;> simp [removeUrlsFromObject, isObjectType]

mutual
/-- The function `removeUrlsFromObject` is idempotent. -/
theorem removeUrls_idem : ∀ v : JValue,
    removeUrlsFromObject (removeUrlsFromObject v) = removeUrlsFromObject v
  | .str s => by simp [removeUrlsFromObject, stripObj]
  | .num n => by simp [removeUrlsFromObject, stripObj]
  | .boolean b => by simp [removeUrlsFromObject, stripObj]
  | .null => by simp [removeUrlsFromObject, stripObj]
  | .undefined => by simp [removeUrlsFromObject, stripObj]
  | .arr xs => by simp [removeUrlsFromObject, stripArr_idem xs]
  | .obj kvs => by simp [removeUrlsFromObject, stripObj_idem kvs]

/-- The function `stripArr` is idempotent. -/
theorem stripArr_idem : ∀ xs : JArr, stripArr (stripArr xs) = stripArr xs
  | .nil => by simp [stripArr]
  | .cons v vs => by
    by_cases h1 : isObjectType v
    · simp [stripArr, h1, isObjectType_removeUrls v, removeUrls_idem v, stripArr_idem vs]
    · by_cases h2 : isUrlString v
      · simp [stripArr, h1, h2, stripArr_idem vs]
      · simp [stripArr, h1, h2, stripArr_idem vs]

/-- The function `stripObj` is idempotent. -/
theorem stripObj_idem : ∀ kvs : JObj, stripObj (stripObj kvs) = stripObj kvs
  | .nil => by simp [stripObj]
  | .cons k v rest => by
    by_cases h1 : isObjectType v
    · simp [stripObj, h1, isObjectType_removeUrls v, removeUrls_idem v, stripObj_idem rest]
    · by_cases h2 : isUrlString v
      · simp [stripObj, h1, h2, stripObj_idem rest]
      · simp [stripObj, h1, h2, stripObj_idem rest]
end

mutual
/-- The output of `removeUrlsFromObject` contains no URL string. -/
theorem removeUrls_urlFree : ∀ v : JValue, urlFree (removeUrlsFromObject v) = true
  | .str s => by simp [removeUrlsFromObject, urlFree, urlFreeObj]
  | .num n => by simp [removeUrlsFromObject, urlFree, urlFreeObj]
  | .boolean b => by simp [removeUrlsFromObject, urlFree, urlFreeObj]
  | .null => by simp [removeUrlsFromObject, urlFree, urlFreeObj]
  | .undefined => by simp [removeUrlsFromObject, urlFree, urlFreeObj]
  | .arr xs => by simp [removeUrlsFromObject, urlFree, stripArr_urlFree xs]
  | .obj kvs => by simp [removeUrlsFromObject, urlFree, stripObj_urlFree kvs]

/-- The output of `stripArr` contains no URL string. -/
theorem stripArr_urlFree : ∀ xs : JArr, urlFreeArr (stripArr xs) = true
  | .nil => by simp [stripArr, urlFreeArr]
  | .cons v vs => by
    by_cases h1 : isObjectType v
    · simp [stripArr, h1, urlFreeArr, removeUrls_urlFree v, stripArr_urlFree vs]
    · by_cases h2 : isUrlString v
      · simp [stripArr, h1, h2, stripArr_urlFree vs]
      · cases v <;>
          simp_all [stripArr, urlFreeArr, urlFree, isObjectType, stripArr_urlFree vs]

/-- The output of `stripObj` contains no URL string. -/
theorem stripObj_urlFree : ∀ kvs : JObj, urlFreeObj (stripObj kvs) = true
  | .nil => by simp [stripObj, urlFreeObj]
  | .cons k v rest => by
    by_cases h1 : isObjectType v
    · simp [stripObj, h1, urlFreeObj, removeUrls_urlFree v, stripObj_urlFree rest]
    · by_cases h2 : isUrlString v
      · simp [stripObj, h1, h2, stripObj_urlFree rest]
      · cases v <;>
          simp_all [stripObj, urlFreeObj, urlFree, isObjectType, stripObj_urlFree rest]
end

/-- C6: `removeUrlsFromObject` is idempotent on every JSON-like tree; an
entry whose string value does not start with `"http"` survives stripping
unchanged (in objects and in arrays, at any position, hence at any depth by
the recursive equations); an entry whose string value starts with `"http"`
is removed; and the result never contains a URL-valued attribute at any
depth. -/
theorem claimC6 (v : JValue) (k s : String) (kvs : JObj) (xs : JArr) :
    removeUrlsFromObject (removeUrlsFromObject v) = removeUrlsFromObject v
    ∧ (jsStartsWith "http" s = false →
        stripObj (.cons k (.str s) kvs) = .cons k (.str s) (stripObj kvs)
        ∧ stripArr (.cons (.str s) xs) = .cons (.str s) (stripArr xs))
    ∧ (jsStartsWith "http" s = true →
        stripObj (.cons k (.str s) kvs) = stripObj kvs
        ∧ stripArr (.cons (.str s) xs) = stripArr xs)
    ∧ urlFree (removeUrlsFromObject v) = true := by
  refine ⟨removeUrls_idem v, ?_, ?_, removeUrls_urlFree v⟩
  · intro h
    constructor <;> simp [stripObj, stripArr, isObjectType, isUrlString, h]
  · intro h
    constructor <;> simp [stripObj, stripArr, isObjectType, isUrlString, h]

/-- A nested tree with URL strings at several depths for the C6 witness. -/
def treeW : JValue :=
  .obj (.cons "url" (.str "http://api/self")
       (.cons "enabled" (.boolean true)
       (.cons "inner" (.obj (.cons "href" (.str "https://api/other")
                            (.cons "count" (.num 2) .nil)))
       (.cons "items" (.arr (.cons (.str "http://api/x")
                            (.cons (.str "name") .nil))) .nil))))

/-- Witness for C6 on `treeW`, with `"main"` as the surviving string and
`"http://api"` as the removed one. -/
theorem claimC6_witness :
    removeUrlsFromObject (removeUrlsFromObject treeW) = removeUrlsFromObject treeW
    ∧ (stripObj (.cons "k" (.str "main") .nil) = .cons "k" (.str "main") (stripObj .nil)
        ∧ stripArr (.cons (.str "main") .nil) = .cons (.str "main") (stripArr .nil))
    ∧ (stripObj (.cons "k" (.str "http://api") .nil) = stripObj .nil
        ∧ stripArr (.cons (.str "http://api") .nil) = stripArr .nil)
    ∧ urlFree (removeUrlsFromObject treeW) = true :=
  ⟨(claimC6 treeW "k" "main" .nil .nil).1,
   (claimC6 treeW "k" "main" .nil .nil).2.1 (by decide),
   (claimC6 treeW "k" "http://api" .nil .nil).2.2.1 (by decide),
   (claimC6 treeW "k" "main" .nil .nil).2.2.2⟩

/-! ## C1 — one row per repository -/

/-- C1: whenever every repository's two lookups come back (the protection
lookup succeeding or failing with 404, the collaborator listing
succeeding), the main loop appends exactly one row per repository, in
repository processing order, with no uncaught failure — repositories with
absent protection or an empty admin list included. -/
theorem claimC1 (P : Repo → Except JsError JValue)
    (C : Repo → Except JsError (List Collaborator))
    (O : List String) (repos : List Repo)
    (h : ∀ repo ∈ repos,
      (P repo = .error (some 404) ∨ ∃ d, P repo = .ok d) ∧ ∃ cs, C repo = .ok cs) :
    processRepos P C O repos =
      (repos.map (fun repo =>
        buildRow repo
          ((getBranchProtectionRules (P repo) repo).toOption.getD
            { name := .undefined, protection := .undefined })
          (resolveAdmins O (getRepoAdminsOf ((C repo).toOption.getD [])))), none) := by
  induction repos with
  | nil => simp [processRepos]
  | cons repo rest ih =>
    obtain ⟨hp, cs, hc⟩ := h repo (by simp)
    have hbpr : ∃ rule, getBranchProtectionRules (P repo) repo = .ok rule := by
      rcases hp with h404 | ⟨d, hd⟩
      · exact ⟨{ name := .str repo.default_branch,
                 protection := .obj (.cons "enabled" (.boolean false) .nil) },
               by simp [h404, getBranchProtectionRules]⟩
      · exact ⟨{ name := jGet d "name",
                 protection := removeUrlsFromObject (.obj (parsedProtection d)) },
               by simp [hd, getBranchProtectionRules]⟩
    obtain ⟨rule, hrule⟩ := hbpr
    have ihr := ih (fun r hr => h r (by simp [hr]))
    simp [processRepos, hrule, hc, getRepoAdmins, ihr, Except.toOption]

/-- Concrete repositories for the C1 witness. -/
def reposW : List Repo := [⟨"repo-a", "main"⟩, ⟨"repo-b", "master"⟩]

/-- Protection lookups for the C1 witness: `repo-a` succeeds, `repo-b`
gets a 404. -/
def protLookupW : Repo → Except JsError JValue :=
  fun r => if r.name = "repo-a" then .ok (.obj .nil) else .error (some 404)

/-- Collaborator listings for the C1 witness: both empty (so both admin
lists are empty). -/
def collabFetchW : Repo → Except JsError (List Collaborator) := fun _ => .ok []

/-- Witness for C1: two repositories, one 404-protected, both with empty
admin lists, produce exactly two rows in order and no failure. -/
theorem claimC1_witness :
    processRepos protLookupW collabFetchW [] reposW =
      (reposW.map (fun repo =>
        buildRow repo
          ((getBranchProtectionRules (protLookupW repo) repo).toOption.getD
            { name := .undefined, protection := .undefined })
          (resolveAdmins [] (getRepoAdminsOf ((collabFetchW repo).toOption.getD [])))), none)
    ∧ (processRepos protLookupW collabFetchW [] reposW).1.length = 2 :=
  ⟨claimC1 protLookupW collabFetchW [] reposW (by
      intro repo hr
      simp only [reposW, List.mem_cons, List.not_mem_nil, or_false] at hr
      rcases hr with rfl | rfl
      · exact ⟨Or.inr ⟨.obj .nil, rfl⟩, [], rfl⟩
      · exact ⟨Or.inl rfl, [], rfl⟩),
   by decide⟩

/-! ## C4 — 403 retry behaviour -/

/-- C4 as stated is false: not every request issued through the shared
axios transport retries on 403. `getRepoAdmins` has no try/catch, so a 403
from the admin-collaborator request is surfaced to the caller as a failure
with no sleep and no retry. -/
theorem claimC4_counterexample :
    getRepoAdmins (.error (some 403)) = (.error (some 403) : Except JsError String) := rfl

/-- The `getRepos` loop with `k` consecutive 403s on a URL and then a
success on the same URL: it sleeps 60000 ms per 403 and retries the same
request, for any `k` (no retry ceiling). -/
theorem getReposGo_retry (t : Nat → String → Except JsError ReposPage)
    (url : String) (page : ReposPage) :
    ∀ (k i : Nat) (acc : List Repo) (sleeps : List Nat),
      (∀ j, j < k → t (i + j) url = .error (some 403)) →
      t (i + k) url = .ok page → nextUrlOfHeaders page.link = none →
      getReposGo t (k + 1) i url acc sleeps =
        some (.ok (acc ++ page.data, sleeps ++ List.replicate k 60000))
  | 0, i, acc, sleeps, _, hok, hlink => by
    simp only [Nat.add_zero] at hok
    simp [getReposGo, hok, hlink]
  | k + 1, i, acc, sleeps, h403, hok, hlink => by
    have h0 : t i url = .error (some 403) := by
      simpa using h403 0 (Nat.succ_pos k)
    have hstep : getReposGo t (k + 1 + 1) i url acc sleeps =
        getReposGo t (k + 1) (i + 1) url acc (sleeps ++ [60000]) := by
      simp [getReposGo, h0]
    have hok2 : t (i + 1 + k) url = .ok page := by
      rw [show i + 1 + k = i + (k + 1) from by omega]
      exact hok
    rw [hstep, getReposGo_retry t url page k (i + 1) acc (sleeps ++ [60000])
      (fun j hj => by
        have hx := h403 (j + 1) (by omega)
        rw [show i + 1 + j = i + (j + 1) from by omega]
        exact hx) hok2 hlink]
    simp [List.replicate_succ, List.append_assoc]

/-- The org-validation loop with `k` consecutive 403s then a success:
sleeps 60000 ms per 403 and retries, for any `k`. -/
theorem validateOrg_retry (tv : Nat → Except JsError Unit) :
    ∀ (k i : Nat) (sleeps : List Nat),
      (∀ j, j < k → tv (i + j) = .error (some 403)) → tv (i + k) = .ok () →
      validateOrg tv (k + 1) i sleeps = some (.passed, sleeps ++ List.replicate k 60000)
  | 0, i, sleeps, _, hok => by
    simp only [Nat.add_zero] at hok
    simp [validateOrg, hok]
  | k + 1, i, sleeps, h403, hok => by
    have h0 : tv i = .error (some 403) := by
      simpa using h403 0 (Nat.succ_pos k)
    have hstep : validateOrg tv (k + 1 + 1) i sleeps =
        validateOrg tv (k + 1) (i + 1) (sleeps ++ [60000]) := by
      simp [validateOrg, h0]
    have hok2 : tv (i + 1 + k) = .ok () := by
      rw [show i + 1 + k = i + (k + 1) from by omega]
      exact hok
    rw [hstep, validateOrg_retry tv k (i + 1) (sleeps ++ [60000])
      (fun j hj => by
        have hx := h403 (j + 1) (by omega)
        rw [show i + 1 + j = i + (j + 1) from by omega]
        exact hx) hok2]
    simp [List.replicate_succ, List.append_assoc]

/-- C4 amended: the 60-second-sleep-and-retry on 403 (indefinitely, with no
retry ceiling) applies to the repository-listing requests of `getRepos`
and to the org-validation request of `main`; a 403 from the other requests
(here the admin-collaborator fetch) propagates to the caller as a failure.
A 401 is never retried: `getRepos` re-throws it at once and the
org-validation loop terminates the run at once. -/
theorem claimC4 (t : Nat → String → Except JsError ReposPage)
    (tv : Nat → Except JsError Unit) (org : String) (k : Nat)
    (page : ReposPage) (e : JsError) :
    ((∀ j, j < k → t j (reposStartUrl org) = .error (some 403)) →
      t k (reposStartUrl org) = .ok page → page.link = none →
      getRepos t org (k + 1) = some (.ok (page.data, List.replicate k 60000)))
    ∧ (t 0 (reposStartUrl org) = .error (some 401) →
      getRepos t org (k + 1) = some (.error (some 401)))
    ∧ getRepoAdmins (.error e) = .error e
    ∧ ((∀ j, j < k → tv j = .error (some 403)) → tv k = .ok () →
      validateOrg tv (k + 1) 0 [] = some (.passed, List.replicate k 60000))
    ∧ (tv 0 = .error (some 401) → validateOrg tv (k + 1) 0 [] = some (.exitInvalidToken, [])) := by
  refine ⟨?_, ?_, rfl, ?_, ?_⟩
  · intro h403 hok hlink
    have := getReposGo_retry t (reposStartUrl org) page k 0 [] []
      (fun j hj => by simpa using h403 j hj) (by simpa using hok)
      (by rw [hlink]; rfl)
    simpa [getRepos] using this
  · intro h401
    simp [getRepos, getReposGo, h401]
  · intro h403 hok
    have := validateOrg_retry tv k 0 [] (fun j hj => by simpa using h403 j hj)
      (by simpa using hok)
    simpa using this
  · intro h401
    simp [validateOrg, h401]

/-- Transport for the C4 witness: two 403s, then a final single page. -/
def transportW : Nat → String → Except JsError ReposPage :=
  fun i _ => if i < 2 then .error (some 403) else .ok ⟨[⟨"repo-a", "main"⟩], none⟩

/-- Org-validation transport for the C4 witness: two 403s, then success. -/
def transportVW : Nat → Except JsError Unit :=
  fun i => if i < 2 then .error (some 403) else .ok ()

/-- Witness for C4: two 403s then success on the listing and on the
validation (two 60000 ms sleeps each), a 401 first response, and the
admin fetch surfacing its 403. -/
theorem claimC4_witness :
    getRepos transportW "acme" 3 = some (.ok ([⟨"repo-a", "main"⟩], [60000, 60000]))
    ∧ getRepos (fun _ _ => .error (some 401)) "acme" 3 = some (.error (some 401))
    ∧ getRepoAdmins (.error (some 403)) = .error (some 403)
    ∧ validateOrg transportVW 3 0 [] = some (.passed, [60000, 60000])
    ∧ validateOrg (fun _ => .error (some 401)) 3 0 [] = some (.exitInvalidToken, []) :=
  ⟨(claimC4 transportW transportVW "acme" 2 ⟨[⟨"repo-a", "main"⟩], none⟩ (some 403)).1
      (by intro j hj; rcases (by omega : j = 0 ∨ j = 1) with rfl | rfl <;> rfl) rfl rfl,
   (claimC4 (fun _ _ => .error (some 401)) transportVW "acme" 2
      ⟨[⟨"repo-a", "main"⟩], none⟩ (some 403)).2.1 rfl,
   (claimC4 transportW transportVW "acme" 2 ⟨[⟨"repo-a", "main"⟩], none⟩ (some 403)).2.2.1,
   (claimC4 transportW transportVW "acme" 2 ⟨[⟨"repo-a", "main"⟩], none⟩ (some 403)).2.2.2.1
      (by intro j hj; rcases (by omega : j = 0 ∨ j = 1) with rfl | rfl <;> rfl) rfl,
   (claimC4 transportW (fun _ => .error (some 401)) "acme" 2
      ⟨[⟨"repo-a", "main"⟩], none⟩ (some 403)).2.2.2.2 rfl⟩

/-! ## C2 — pagination -/

/-- A link-header entry advertising `u` as the next page, in the format
the claim describes: `<url>; rel="next"`. -/
def nextEntryFor (u : String) : String := "<" ++ u ++ ">; rel=\"next\""

/-- A next-page URL as the loop can consume it: non-empty (JS `while (url)`
would stop on the empty string) and free of the angle brackets that
delimit it in the header entry. -/
abbrev UrlShape (u : String) : Prop := u ≠ "" ∧ '<' ∉ u.data ∧ '>' ∉ u.data

/-- The link header of a last page: absent, or without any entry whose
relation is `next`. -/
def NoNext : Option String → Prop
  | none => True
  | some h => findNextLink (jsSplitCommaSpace h) = none

/-- The transport serves, starting at call `i` and URL `u`, the given
pages in order: every page except the last carries a link header whose
first `rel="next"` entry is `<nextUrl>; rel="next"`, and the last page
advertises no next page. -/
def ChainServes (t : Nat → String → Except JsError ReposPage) :
    Nat → String → List (List Repo) → Prop
  | _, _, [] => False
  | i, u, [page] => ∃ link, t i u = .ok ⟨page, link⟩ ∧ NoNext link
  | i, u, page :: q :: rest => ∃ h u2, t i u = .ok ⟨page, some h⟩ ∧
      findNextLink (jsSplitCommaSpace h) = some (nextEntryFor u2) ∧ UrlShape u2 ∧
      ChainServes t (i + 1) u2 (q :: rest)

/-- Cutting the URL out of a well-formed `rel="next"` entry with the
code's `slice(indexOf('<') + 1, indexOf('>'))` recovers the URL. -/
theorem jsSlice_nextEntry (u : String) (_h1 : '<' ∉ u.data) (h2 : '>' ∉ u.data) :
    jsSlice (nextEntryFor u) (jsIndexOf (nextEntryFor u) '<' + 1)
      (jsIndexOf (nextEntryFor u) '>') = u := by
  have hdata : (nextEntryFor u).data = ('<' :: u.data) ++ ('>' :: "; rel=\"next\"".data) := by
    simp [nextEntryFor, String.data_append]
  have hlt : jsIndexOf (nextEntryFor u) '<' = 0 := by
    simp [jsIndexOf, hdata, List.findIdx?_cons]
  have hnone : List.findIdx? (fun d => d = '>') ('<' :: u.data) = none := by
    rw [List.findIdx?_eq_none_iff]
    intro x hx
    simp only [List.mem_cons] at hx
    rcases hx with rfl | hx
    · simp
    · simp
      rintro rfl
      exact h2 hx
  have hgt : jsIndexOf (nextEntryFor u) '>' = (u.data.length + 1 : Nat) := by
    simp only [jsIndexOf, hdata, List.findIdx?_append, hnone, Option.none_or]
    rw [List.findIdx?_cons]
    simp
  rw [jsSlice, hlt, hgt, hdata]
  have hidx : ∀ (len k : Nat), k ≤ len → jsSliceIdx len ((k : Nat) : Int) = k := by
    intro len k hk
    simp only [jsSliceIdx]
    rw [if_neg (by omega)]
    omega
  have hlen1 : 1 ≤ (('<' :: u.data) ++ ('>' :: "; rel=\"next\"".data)).length := by
    simp
  have hlen2 : u.data.length + 1 ≤ (('<' :: u.data) ++ ('>' :: "; rel=\"next\"".data)).length := by
    simp
  have hstart : jsSliceIdx ((('<' :: u.data) ++ ('>' :: "; rel=\"next\"".data)).length) (0 + 1) = 1 := by
    have := hidx _ 1 hlen1
    simpa using this
  have hstop : jsSliceIdx ((('<' :: u.data) ++ ('>' :: "; rel=\"next\"".data)).length)
      ((u.data.length + 1 : Nat) : Int) = u.data.length + 1 :=
    hidx _ (u.data.length + 1) hlen2
  simp only [hstart, hstop]
  have : (('<' :: u.data) ++ ('>' :: "; rel=\"next\"".data)).drop 1
      = u.data ++ ('>' :: "; rel=\"next\"".data) := by
    simp
  rw [this]
  have htake : (u.data ++ ('>' :: "; rel=\"next\"".data)).take (u.data.length + 1 - 1)
      = u.data := by
    simp [List.take_left]
  rw [htake]

/-- On a header whose first `rel="next"` entry is `<u2>; rel="next"`, the
loop's link parsing yields `u2`. -/
theorem nextUrlOfHeaders_entry (h : String) (u2 : String)
    (hfind : findNextLink (jsSplitCommaSpace h) = some (nextEntryFor u2))
    (h1 : '<' ∉ u2.data) (h2 : '>' ∉ u2.data) :
    nextUrlOfHeaders (some h) = some u2 := by
  simp [nextUrlOfHeaders, hfind, jsSlice_nextEntry u2 h1 h2]

/-- A chain of served pages makes the loop return the concatenation of the
pages, with no sleeps, whatever was accumulated so far. -/
theorem getReposGo_chain (t : Nat → String → Except JsError ReposPage) :
    ∀ (pages : List (List Repo)) (i : Nat) (u : String)
      (acc : List Repo) (sleeps : List Nat),
      ChainServes t i u pages →
      getReposGo t pages.length i u acc sleeps = some (.ok (acc ++ pages.flatten, sleeps))
  | [], _, _, _, _, hc => absurd hc (by simp [ChainServes])
  | [page], i, u, acc, sleeps, hc => by
    obtain ⟨link, ht, hn⟩ := hc
    have hnext : nextUrlOfHeaders link = none := by
      cases link with
      | none => rfl
      | some hh =>
        have hfn : findNextLink (jsSplitCommaSpace hh) = none := hn
        simp [nextUrlOfHeaders, hfn]
    simp [getReposGo, ht, hnext]
  | page :: q :: rest, i, u, acc, sleeps, hc => by
    obtain ⟨h, u2, ht, hfind, hshape, hchain⟩ := hc
    have hnext : nextUrlOfHeaders (some h) = some u2 :=
      nextUrlOfHeaders_entry h u2 hfind hshape.2.1 hshape.2.2
    have hrec := getReposGo_chain t (q :: rest) (i + 1) u2 (acc ++ page) sleeps hchain
    simp only [List.length_cons] at hrec ⊢
    rw [getReposGo]
    simp only [ht, hnext]
    rw [if_neg hshape.1, hrec]
    simp

/-- C2: when the transport serves `N` pages where every page except the
last carries a link header with a comma-separated `<url>; rel="next"`
entry, `getRepos` returns the concatenation of the pages' item lists in
page order (each item exactly once), terminating on the page with no next
entry or no header, with no sleeps. -/
theorem claimC2 (t : Nat → String → Except JsError ReposPage) (org : String)
    (pages : List (List Repo)) (h : ChainServes t 0 (reposStartUrl org) pages) :
    getRepos t org pages.length = some (.ok (pages.flatten, [])) := by
  have := getReposGo_chain t pages 0 (reposStartUrl org) [] [] h
  simpa [getRepos] using this

/-- Link header of the first page for the C2 witness: a `rel="prev"`
entry followed by the `rel="next"` entry, comma-separated. -/
def linkHeaderW : String :=
  "<https://api.github.com/orgs/acme/repos?per_page=100&page=1>; rel=\"prev\", <https://api.github.com/orgs/acme/repos?per_page=100&page=2>; rel=\"next\""

/-- Two-page transport for the C2 witness. -/
def pagesTransportW : Nat → String → Except JsError ReposPage :=
  fun i _ =>
    if i = 0 then .ok ⟨[⟨"repo-a", "main"⟩], some linkHeaderW⟩
    else .ok ⟨[⟨"repo-b", "master"⟩], none⟩

/-- Witness for C2: two pages, the first advertising the second through a
real link header, concatenate in order. -/
theorem claimC2_witness :
    getRepos pagesTransportW "acme" 2 =
      some (.ok ([⟨"repo-a", "main"⟩, ⟨"repo-b", "master"⟩], [])) :=
  claimC2 pagesTransportW "acme" [[⟨"repo-a", "main"⟩], [⟨"repo-b", "master"⟩]]
    ⟨linkHeaderW, "https://api.github.com/orgs/acme/repos?per_page=100&page=2",
     rfl, by decide, by decide, none, rfl, trivial⟩

/-! ## C5 — admin-exception resolution -/

/-- Splitting a list that does not contain the separator yields the list
itself as the single segment. -/
theorem jsSplitOneSep_nonSep (c : Char) : ∀ l : List Char, c ∉ l → jsSplitOneSep c l = [l]
  | [], _ => rfl
  | d :: rest, h => by
    have hd : ¬ d = c := fun e => h (e ▸ List.mem_cons_self d rest)
    have hrest : c ∉ rest := fun e => h (List.mem_cons_of_mem d e)
    rw [jsSplitOneSep, if_neg hd, jsSplitOneSep_nonSep c rest hrest]

/-- Splitting cuts at the first separator occurrence when the prefix is
separator-free. -/
theorem jsSplitOneSep_append (c : Char) :
    ∀ (l t : List Char), c ∉ l →
      jsSplitOneSep c (l ++ c :: t) = l :: jsSplitOneSep c t
  | [], t, _ => by
    rw [List.nil_append, jsSplitOneSep, if_pos rfl]
  | d :: l, t, h => by
    have hd : ¬ d = c := fun e => h (e ▸ List.mem_cons_self d l)
    have hl : c ∉ l := fun e => h (List.mem_cons_of_mem d e)
    rw [List.cons_append, jsSplitOneSep, if_neg hd, jsSplitOneSep_append c l t hl]

/-- Unfolding `join` on a list with at least two segments. -/
theorem jsJoinChars_cons_cons (sep : List Char) (x y : List Char) (xs : List (List Char)) :
    jsJoinChars sep (x :: y :: xs) = x ++ sep ++ jsJoinChars sep (y :: xs) := rfl

/-- A character pushed onto a join is pushed onto its first segment. -/
theorem cons_jsJoinChars (sep : List Char) (d : Char) (r : List Char) (rs : List (List Char)) :
    d :: jsJoinChars sep (r :: rs) = jsJoinChars sep ((d :: r) :: rs) := by
  cases rs <;> simp [jsJoinChars]

/-- Splitting a `'; '`-join on `';'` recovers the segments, every segment
after the first with the pending `' '` attached. -/
theorem jsSplitOneSep_joinSemiSpace :
    ∀ (ls : List (List Char)) (l : List Char), ';' ∉ l → (∀ r ∈ ls, ';' ∉ r) →
      jsSplitOneSep ';' (jsJoinChars [';', ' '] (l :: ls)) = l :: ls.map (fun r => ' ' :: r)
  | [], l, hl, _ => by
    rw [show jsJoinChars [';', ' '] [l] = l from rfl, jsSplitOneSep_nonSep ';' l hl]
    rfl
  | r :: rs, l, hl, hr => by
    rw [jsJoinChars_cons_cons]
    rw [show l ++ [';', ' '] ++ jsJoinChars [';', ' '] (r :: rs)
        = l ++ ';' :: (' ' :: jsJoinChars [';', ' '] (r :: rs)) from by simp]
    rw [jsSplitOneSep_append ';' l _ hl, cons_jsJoinChars]
    rw [jsSplitOneSep_joinSemiSpace rs (' ' :: r)
      (by
        intro hm
        rcases List.mem_cons.mp hm with he | he
        · exact absurd he (by decide)
        · exact hr r (List.mem_cons_self r rs) he)
      (fun q hq => hr q (List.mem_cons_of_mem r hq))]
    simp

/-- Trimming ignores a leading space. -/
theorem jsTrimChars_cons_space (l : List Char) : jsTrimChars (' ' :: l) = jsTrimChars l := by
  have hws : Char.isWhitespace ' ' = true := by decide
  simp [jsTrimChars, List.dropWhile_cons, hws]

/-- A login as the claim quantifies over it: free of the `';'` join
separator and with no surrounding whitespace (so that the split/trim
round-trip of `main` is lossless). -/
abbrev LoginOk (s : String) : Prop := (';' ∉ s.data) ∧ jsTrimChars s.data = s.data

/-- C5: the composite admin-exception pipeline (server list filtered on
`permissions.admin`, logins joined with `'; '` by `getRepoAdmins`, then
split, trimmed, lower-cased, owner-filtered and re-joined by `main`)
equals: keep the explicitly-admin users' logins, lower-case them, drop
those in the lower-cased owner set, in original API order. -/
theorem claimC5 (owners : List String) (collabs : List Collaborator)
    (h : ∀ u ∈ collabs, LoginOk u.login) :
    resolveAdmins (owners.map jsToLower) (getRepoAdminsOf collabs) =
      jsJoin ";" ((((collabs.filter (fun u => u.permissions.admin)).map (fun u => u.login)).map
        jsToLower).filter (fun a => !((owners.map jsToLower).contains a))) := by
  have hxs : ∀ x ∈ (collabs.filter (fun u => u.permissions.admin)).map (fun u => u.login),
      (';' ∉ x.data) ∧ jsTrimChars x.data = x.data := by
    intro x hx
    simp only [List.mem_map, List.mem_filter] at hx
    obtain ⟨u, ⟨hu, _⟩, rfl⟩ := hx
    exact h u hu
  simp only [resolveAdmins, getRepoAdminsOf]
  generalize hg : (collabs.filter (fun u => u.permissions.admin)).map (fun u => u.login) = xs at hxs ⊢
  rcases xs with _ | ⟨x, rest⟩
  · have hlist : (jsSplitSemi (jsJoin "; " ([] : List String))).map
        (fun a => jsToLower (jsTrim a)) = [""] := rfl
    rw [hlist]
    cases hcb : ((owners.map jsToLower).contains "") with
    | true =>
      have hf : ([""].filter (fun a => !((owners.map jsToLower).contains a))) = [] := by
        simp only [List.filter_cons, List.filter_nil, hcb, Bool.not_true]
        simp
      rw [hf]
      rfl
    | false =>
      have hf : ([""].filter (fun a => !((owners.map jsToLower).contains a))) = [""] := by
        simp only [List.filter_cons, List.filter_nil, hcb, Bool.not_false]
        simp
      rw [hf]
      rfl
  · have hsplit : jsSplitSemi (jsJoin "; " (x :: rest))
        = x :: rest.map (fun r => String.mk (' ' :: r.data)) := by
      have hdata : ("; ".data) = [';', ' '] := rfl
      simp only [jsSplitSemi, jsJoin, hdata, List.map_cons]
      rw [jsSplitOneSep_joinSemiSpace (rest.map String.data) x.data
        (hxs x (List.mem_cons_self x rest)).1
        (by
          intro r hr
          simp only [List.mem_map] at hr
          obtain ⟨s, hs, rfl⟩ := hr
          exact (hxs s (List.mem_cons_of_mem x hs)).1)]
      simp [List.map_map, Function.comp]
    rw [hsplit]
    have htrimfirst : jsToLower (jsTrim x) = jsToLower x := by
      have hx := (hxs x (List.mem_cons_self x rest)).2
      simp only [jsTrim]
      rw [hx]
    have hresttrim : ∀ r ∈ rest,
        jsToLower (jsTrim (String.mk (' ' :: r.data))) = jsToLower r := by
      intro r hr
      have htr := (hxs r (List.mem_cons_of_mem x hr)).2
      simp only [jsTrim, show (String.mk (' ' :: r.data)).data = ' ' :: r.data from rfl]
      rw [jsTrimChars_cons_space, htr]
    have hmap : (x :: rest.map (fun r => String.mk (' ' :: r.data))).map
        (fun a => jsToLower (jsTrim a)) = (x :: rest).map jsToLower := by
      simp only [List.map_cons, List.map_map]
      rw [htrimfirst]
      refine congrArg (jsToLower x :: ·) ?_
      exact List.map_congr_left (fun r hr => hresttrim r hr)
    rw [hmap]

/-- The fetched admin collaborators of the claim's example, all with
explicit admin permission. -/
def collabsW : List Collaborator :=
  [⟨"Alice", ⟨true⟩⟩, ⟨"Carol", ⟨true⟩⟩, ⟨"Dave", ⟨true⟩⟩]

/-- Witness for C5: owners `{alice, bob}` and fetched admins
`{Alice, Carol, Dave}` yield `carol;dave`, lower-cased, in order,
excluding alice. -/
theorem claimC5_witness :
    resolveAdmins (["alice", "bob"].map jsToLower) (getRepoAdminsOf collabsW) =
      jsJoin ";" ((((collabsW.filter (fun u => u.permissions.admin)).map (fun u => u.login)).map
        jsToLower).filter (fun a => !((["alice", "bob"].map jsToLower).contains a)))
    ∧ resolveAdmins (["alice", "bob"].map jsToLower) (getRepoAdminsOf collabsW) = "carol;dave" :=
  ⟨claimC5 ["alice", "bob"] collabsW (by decide), by decide⟩

end BranchReport
